import Mathlib

/-!
# Verification of the sighchat realtime matching core

Shallow embedding of `backend/realtime/consumers.py` (the `MatchConsumer`
matching engine, waiting-queue store and room relay protocol) and of
`backend/realtime/ws_auth.py` (the JWT handshake gate).

Conventions of the embedding:
* Python `deque` pools become Lean `List`s (front of the list = left end of
  the deque, so `popleft` is pattern matching on the head and `append` is
  list concatenation on the right).
* The global `REGION_QUEUES` dict becomes an association list preserving
  insertion order, as CPython dicts do.
* Every side effect performed by a coroutine (lock acquire/release, channel
  layer `group_add` / `group_discard` / `send` / `group_send`, and the JSON
  reply to the handling connection's own client) is recorded in order in a
  list of `Effect`s, so temporal claims about the code can be stated as
  facts about the produced trace.
* `uuid.uuid4()` is nondeterministic; the fresh room identifier is passed to
  the handlers as an explicit argument `rid`.
* JSON values arriving in `chat` messages are modeled by the `Json`
  inductive together with Python truthiness (`pyFalsy`).
-/

namespace Sighchat

/-- A JSON value, as carried by the `room_id` / `message` fields of a `chat`
message (Python objects flowing through `content.get`). -/
inductive Json where
  | null : Json
  | jbool : Bool → Json
  | jnum : Int → Json
  | jstr : String → Json
  | jarr : List Json → Json
  | jobj : List (String × Json) → Json

/-- Python truthiness test (`not x`) on a JSON value: `None`, `False`, `0`,
`""`, `[]` and `{}` are falsy. -/
def Json.falsy : Json → Bool
  | .null => true
  | .jbool b => !b
  | .jnum n => n == 0
  | .jstr s => s == ""
  | .jarr xs => xs.isEmpty
  | .jobj fs => fs.isEmpty

/-- `not content.get(k)` where `content.get(k)` may be absent (`None`). -/
def pyFalsyOpt : Option Json → Bool
  | none => true
  | some j => j.falsy

/-- `WaitingUser` TypedDict from consumers.py: one waiting-queue entry. -/
structure WaitingUser where
  channel_name : String
  region : String
deriving DecidableEq, Repr

/-- The process-global waiting queue store: `RANDOM_QUEUE` and
`REGION_QUEUES` (the latter as an insertion-ordered association list). -/
structure Store where
  randomQueue : List WaitingUser
  regionQueues : List (String × List WaitingUser)
deriving DecidableEq, Repr

/-- The empty store the module starts with. -/
def Store.empty : Store := ⟨[], []⟩

/-- Per-connection mutable state of a `MatchConsumer` instance
(`self.region`, `self.mode`, `self.room_id`, `self.room_group_name`).
The connection identity `self.channel_name` is passed separately. -/
structure Session where
  region : String := "GLOBAL"
  mode : Option String := none
  room_id : Option String := none
  room_group_name : Option String := none
deriving DecidableEq, Repr

/-- Events travelling over the channel layer between consumers. -/
inductive ChannelEvent where
  | matchJoin : String → String → ChannelEvent      -- match.join {room_id, peer_region}
  | chatMessage : Json → Json → ChannelEvent        -- chat.message {room_id, message}
  | chatPeerLeft : ChannelEvent                     -- chat.peer_left

/-- JSON payloads sent to a connection's own websocket client. -/
inductive OutMsg where
  | queued : OutMsg
  | matched : String → String → OutMsg              -- {type: matched, room_id, peer: {region}}
  | cancelled : OutMsg
  | peerLeft : OutMsg
  | chat : Json → Json → OutMsg                     -- {type: chat, room_id, message}
  | err : String → OutMsg                           -- {"error": ...}

/-- One observable side effect of a handler, in program order. -/
inductive Effect where
  | lockAcquire : Effect
  | lockRelease : Effect
  | groupAdd : String → String → Effect             -- channel_layer.group_add(group, channel)
  | groupDiscard : String → String → Effect         -- channel_layer.group_discard(group, channel)
  | sendToOne : String → ChannelEvent → Effect      -- channel_layer.send(channel, event)
  | groupSend : String → ChannelEvent → Effect      -- channel_layer.group_send(group, event)
  | sendJson : OutMsg → Effect                      -- self.send_json(payload)

/-- Association-list lookup in `REGION_QUEUES`. -/
def lookupRegion : List (String × List WaitingUser) → String → Option (List WaitingUser)
  | [], _ => none
  | (k, v) :: rest, r => if k == r then some v else lookupRegion rest r

/-- Store the final queue value for a region key: in-place update when the
key exists, append at the end otherwise (the net effect of
`REGION_QUEUES.setdefault(region, deque())` followed by in-place mutation of
the returned deque). -/
def setRegion : List (String × List WaitingUser) → String → List WaitingUser →
    List (String × List WaitingUser)
  | [], r, q => [(r, q)]
  | (k, v) :: rest, r, q => if k == r then (r, q) :: rest else (k, v) :: setRegion rest r q

/-- `region = content.get("region") or "GLOBAL"`: an absent or falsy (empty
string) region collapses to the global sentinel. -/
def resolveRegion : Option String → String
  | none => "GLOBAL"
  | some r => if r == "" then "GLOBAL" else r

/-- `MatchConsumer._match_in_queue`: pop entries from the left of the target
queue; a popped entry bearing the caller's own channel name is discarded and
popping continues; the first other entry is matched (room group joined,
`match.join` sent to the waiting peer, `matched` replied to the caller); if
the queue runs out the caller is appended and `queued` is replied. Returns
the final queue contents, the updated session, and the effect trace. -/
def matchInQueue (chan : String) (s : Session) (rid : String) (region : String) :
    List WaitingUser → List WaitingUser × Session × List Effect
  | [] =>
    ([⟨chan, region⟩], s, [.sendJson .queued])
  | w :: rest =>
    if w.channel_name == chan then
      matchInQueue chan s rid region rest
    else
      ( rest,
        { s with room_id := some rid, room_group_name := some ("room_" ++ rid) },
        [ .groupAdd ("room_" ++ rid) chan,
          .sendToOne w.channel_name (.matchJoin rid s.region),
          .sendJson (.matched rid w.region) ] )

/-- The `find` message content: `content.get("mode")` and
`content.get("region")`. -/
structure FindContent where
  mode : Option String
  region : Option String

/-- `MatchConsumer.handle_find`: reject an invalid mode, otherwise record
mode and region on the session and run `_match_in_queue` on the selected
pool while holding `QUEUE_LOCK`. -/
def handle_find (chan : String) (s : Session) (c : FindContent) (store : Store)
    (rid : String) : Store × Session × List Effect :=
  if !(c.mode == some "random" || c.mode == some "region") then
    (store, s, [.sendJson (.err "invalid_mode")])
  else
    let region := resolveRegion c.region
    let s1 := { s with mode := c.mode, region := region }
    if c.mode == some "random" then
      let r := matchInQueue chan s1 rid region store.randomQueue
      ({ store with randomQueue := r.1 }, r.2.1,
        .lockAcquire :: (r.2.2 ++ [.lockRelease]))
    else
      let q0 := (lookupRegion store.regionQueues region).getD []
      let r := matchInQueue chan s1 rid region q0
      ({ store with regionQueues := setRegion store.regionQueues region r.1 }, r.2.1,
        .lockAcquire :: (r.2.2 ++ [.lockRelease]))

/-- `MatchConsumer._filter_queue` loop body: drain the deque, keeping (in
order) every entry whose channel differs from the caller's. -/
def filterQueueGo (chan : String) : List WaitingUser → List WaitingUser → List WaitingUser
  | [], tmp => tmp
  | w :: rest, tmp =>
    if w.channel_name == chan then filterQueueGo chan rest tmp
    else filterQueueGo chan rest (tmp ++ [w])

/-- `MatchConsumer._filter_queue`: early-return on an empty deque, otherwise
rebuild it without the caller's entries. -/
def filterQueue (chan : String) (q : List WaitingUser) : List WaitingUser :=
  if q.isEmpty then q else filterQueueGo chan q []

/-- The `for region, q in list(REGION_QUEUES.items())` loop of
`_remove_from_queues`: filter each region pool and pop the key once the
pool is empty. -/
def removeRegions (chan : String) :
    List (String × List WaitingUser) → List (String × List WaitingUser)
  | [] => []
  | (r, q) :: rest =>
    let q' := filterQueue chan q
    if q'.isEmpty then removeRegions chan rest
    else (r, q') :: removeRegions chan rest

/-- The store transformation performed by `_remove_from_queues` (inside
`QUEUE_LOCK`). -/
def removeStore (chan : String) (store : Store) : Store :=
  { randomQueue := filterQueue chan store.randomQueue,
    regionQueues := removeRegions chan store.regionQueues }

/-- `MatchConsumer._remove_from_queues`: acquire the lock, scrub every pool,
release. The trace records that no channel-layer send happens inside. -/
def removeFromQueues (chan : String) (store : Store) : Store × List Effect :=
  (removeStore chan store, [.lockAcquire, .lockRelease])

/-- `MatchConsumer.handle_cancel`: remove from all queues, then — if a room
group is held — broadcast `chat.peer_left` to it, leave it and clear the
room fields; finally reply `cancelled`. -/
def handle_cancel (chan : String) (s : Session) (store : Store) :
    Store × Session × List Effect :=
  let rq := removeFromQueues chan store
  match s.room_group_name with
  | some g =>
    (rq.1, { s with room_group_name := none, room_id := none },
      rq.2 ++ [.groupSend g .chatPeerLeft, .groupDiscard g chan, .sendJson .cancelled])
  | none =>
    (rq.1, s, rq.2 ++ [.sendJson .cancelled])

/-- `MatchConsumer.disconnect`: unconditionally remove from all queues, then
— if a room group is held — broadcast `chat.peer_left` and leave the group.
(The session object is being destroyed; its fields are not cleared.) -/
def disconnect (chan : String) (s : Session) (store : Store) : Store × List Effect :=
  let rq := removeFromQueues chan store
  match s.room_group_name with
  | some g =>
    (rq.1, rq.2 ++ [.groupSend g .chatPeerLeft, .groupDiscard g chan])
  | none =>
    (rq.1, rq.2)

/-- The `chat` message content: `content.get("room_id")` and
`content.get("message")`, each an arbitrary JSON value or absent. -/
structure ChatContent where
  room_id : Option Json
  message : Option Json

/-- Python `room_id != self.room_id` (negated): the inbound JSON `room_id`
equals the session's current room string only when it is that very string;
any non-string value, and any value while `self.room_id is None`, differs
(the inbound value is already known truthy at this point). -/
def chatRoomMatches : Option Json → Option String → Bool
  | some (.jstr r), some cur => r == cur
  | _, _ => false

/-- `MatchConsumer.handle_chat`: falsy/absent field ⇒ `invalid_chat`; wrong
room or no held group ⇒ `not_in_room`; otherwise forward room id and
message verbatim to the room group as a `chat.message` event. (The
`rtc_signal` branch in the source only logs and alters nothing.) -/
def handle_chat (s : Session) (c : ChatContent) : List Effect :=
  if pyFalsyOpt c.room_id || pyFalsyOpt c.message then
    [.sendJson (.err "invalid_chat")]
  else if !(chatRoomMatches c.room_id s.room_id) || s.room_group_name.isNone then
    [.sendJson (.err "not_in_room")]
  else
    [.groupSend (s.room_group_name.getD "")
      (.chatMessage (c.room_id.getD .null) (c.message.getD .null))]

/-- `MatchConsumer.match_join` channel-event handler (the waiting side of a
match): adopt the room id and group from the event, join the relay group,
reply `matched` with the peer's region. -/
def match_join (chan : String) (s : Session) (room_id peer_region : String) :
    Session × List Effect :=
  ({ s with room_id := some room_id, room_group_name := some ("room_" ++ room_id) },
    [.groupAdd ("room_" ++ room_id) chan, .sendJson (.matched room_id peer_region)])

/-- `MatchConsumer.chat_message` channel-event handler: forward verbatim to
the client. -/
def chat_message (room_id message : Json) : List Effect :=
  [.sendJson (.chat room_id message)]

/-- `MatchConsumer.chat_peer_left` channel-event handler: tell the client
the peer left. -/
def chat_peer_left : List Effect :=
  [.sendJson .peerLeft]

/-! ## The store viewed as a transition system

Only `handle_find` and `_remove_from_queues` (reached from `cancel` and
`disconnect`) mutate the global store, and both run their mutation
atomically under `QUEUE_LOCK`, so the reachable stores are exactly the
folds of these two operations from the empty store. The store
transformation of `handle_find` does not depend on the session object. -/

/-- One store-mutating operation: a `find` by some connection (with the
room id its match would use) or a removal (from `cancel` or `disconnect`). -/
inductive StoreOp where
  | find : String → Option String → Option String → String → StoreOp
  | removeOp : String → StoreOp

/-- Apply one operation to the store. -/
def applyOp (store : Store) : StoreOp → Store
  | .find chan mode region rid => (handle_find chan {} ⟨mode, region⟩ store rid).1
  | .removeOp chan => removeStore chan store

/-- Run a sequence of store operations from the empty module state. -/
def runOps (ops : List StoreOp) : Store :=
  ops.foldl applyOp Store.empty

/-- All pools of the store: the random pool plus every region pool. -/
def poolsOf (store : Store) : List (List WaitingUser) :=
  store.randomQueue :: store.regionQueues.map (fun p => p.2)

/-- How many entries of pool `q` bear connection identity `chan`. -/
def countChan (chan : String) (q : List WaitingUser) : Nat :=
  (q.filter (fun w => w.channel_name == chan)).length

/-- Total number of queue positions connection `chan` occupies across the
entire store. -/
def totalOccupancy (chan : String) (store : Store) : Nat :=
  ((poolsOf store).map (countChan chan)).sum

/-! ## Lock-depth analysis of effect traces -/

/-- Is this effect a send on the external messaging layer or a reply to the
caller's client (the operations the spec forbids under the lock)? -/
def isRelaySend : Effect → Bool
  | .groupAdd _ _ => true
  | .groupDiscard _ _ => true
  | .sendToOne _ _ => true
  | .groupSend _ _ => true
  | .sendJson _ => true
  | _ => false

/-- The relay sends of a trace performed while the queue lock is held,
given the current nesting depth. -/
def sendsLockedFrom (d : Nat) : List Effect → List Effect
  | [] => []
  | .lockAcquire :: rest => sendsLockedFrom (d + 1) rest
  | .lockRelease :: rest => sendsLockedFrom (d - 1) rest
  | e :: rest => (if 0 < d then [e] else []) ++ sendsLockedFrom d rest

/-- The relay sends of a trace performed while the lock is NOT held. -/
def sendsUnlockedFrom (d : Nat) : List Effect → List Effect
  | [] => []
  | .lockAcquire :: rest => sendsUnlockedFrom (d + 1) rest
  | .lockRelease :: rest => sendsUnlockedFrom (d - 1) rest
  | e :: rest => (if d == 0 then [e] else []) ++ sendsUnlockedFrom d rest

/-- Relay sends of a whole trace performed under the lock. -/
def sendsWhileLocked (tr : List Effect) : List Effect := sendsLockedFrom 0 tr

/-- Relay sends of a whole trace performed outside the lock. -/
def sendsWhileUnlocked (tr : List Effect) : List Effect := sendsUnlockedFrom 0 tr

/-! ## Interpreting traces against channel-layer group membership

`group_send` delivers an event to every channel currently a member of the
group; `send` delivers to one channel. Membership evolves with
`group_add` / `group_discard` as the trace is replayed. -/

/-- Group membership: group name to member channel list. -/
def GroupState := List (String × List String)

/-- Members of a group (empty when the group is unknown). -/
def groupMembers (gs : GroupState) (g : String) : List String :=
  match gs with
  | [] => []
  | (k, ms) :: rest => if k == g then ms else groupMembers rest g

/-- Add a channel to a group (append the group on first use). -/
def groupAddMember : GroupState → String → String → GroupState
  | [], g, c => [(g, [c])]
  | (k, ms) :: rest, g, c =>
    if k == g then (k, ms ++ [c]) :: rest else (k, ms) :: groupAddMember rest g c

/-- Remove a channel from a group. -/
def groupDropMember : GroupState → String → String → GroupState
  | [], _, _ => []
  | (k, ms) :: rest, g, c =>
    if k == g then (k, ms.filter (fun m => !(m == c))) :: rest
    else (k, ms) :: groupDropMember rest g c

/-- Replay a trace against a group state, collecting every
(channel, event) delivery the channel layer performs. -/
def deliveries (gs : GroupState) : List Effect → List (String × ChannelEvent)
  | [] => []
  | .groupSend g ev :: rest => (groupMembers gs g).map (fun c => (c, ev)) ++ deliveries gs rest
  | .sendToOne c ev :: rest => (c, ev) :: deliveries gs rest
  | .groupAdd g c :: rest => deliveries (groupAddMember gs g c) rest
  | .groupDiscard g c :: rest => deliveries (groupDropMember gs g c) rest
  | _ :: rest => deliveries gs rest

/-! ## The JWT handshake gate (`ws_auth.JwtAuthMiddleware`) -/

/-- The decoded JWT payload: the middleware only reads `sid` and
`session_id`. -/
structure JwtPayload where
  sid : Option String
  session_id : Option String

/-- Python `a or b` on optional strings (`payload.get("sid") or
payload.get("session_id")`): an absent or empty first operand falls through
to the second. -/
def pyOrStr : Option String → Option String → Option String
  | some s, b => if s == "" then b else some s
  | none, b => b

/-- Outcome of the middleware on a websocket scope. -/
inductive AuthOutcome where
  | close : Nat → AuthOutcome                       -- close the socket with this code, app never runs
  | proceed : Option String → AuthOutcome           -- run the app with this session id attached
  | passthrough : AuthOutcome                       -- non-websocket scope, app runs untouched
deriving DecidableEq, Repr

/-- `JwtAuthMiddleware.__call__`, with the external `jwt.decode` primitive
abstracted as `verify : token → Option payload` (`none` = any
`PyJWTError`: bad signature, malformed token, and so on). -/
def jwtAuthMiddleware (scopeType : String) (token : Option String)
    (verify : String → Option JwtPayload) : AuthOutcome :=
  if !(scopeType == "websocket") then .passthrough
  else
    match token with
    | none => .close 4401
    | some t =>
      if t == "" then .close 4401
      else
        match verify t with
        | none => .close 4401
        | some p => .proceed (pyOrStr p.sid p.session_id)

/-! ## Helper observations on traces -/

/-- The targets of the `channel_layer.send`-to-one-channel effects of a
trace, in order. -/
def sentTargets : List Effect → List String
  | [] => []
  | .sendToOne c _ :: rest => c :: sentTargets rest
  | _ :: rest => sentTargets rest

/-- The peer a trace matched the caller with: the target of its first
send-to-one effect, if any. -/
def matchedTarget (tr : List Effect) : Option String :=
  (sentTargets tr).head?

/-! ## Lemmas about queue filtering -/

theorem filterQueueGo_eq (chan : String) (q tmp : List WaitingUser) :
    filterQueueGo chan q tmp = tmp ++ q.filter (fun w => !(w.channel_name == chan)) := by
  induction q generalizing tmp with
  | nil => simp [filterQueueGo]
  | cons w rest ih =>
    by_cases h : w.channel_name == chan <;>
      simp [filterQueueGo, h, ih, List.filter_cons]

theorem filterQueue_eq (chan : String) (q : List WaitingUser) :
    filterQueue chan q = q.filter (fun w => !(w.channel_name == chan)) := by
  cases q with
  | nil => simp [filterQueue]
  | cons w rest => simp [filterQueue, filterQueueGo_eq]

theorem countChan_filterQueue (chan : String) (q : List WaitingUser) :
    countChan chan (filterQueue chan q) = 0 := by
  rw [filterQueue_eq]
  simp only [countChan, List.length_eq_zero, List.filter_eq_nil_iff]
  intro w hw
  simp only [List.mem_filter] at hw
  simpa using hw.2

theorem filterQueue_of_absent (chan : String) (q : List WaitingUser)
    (h : countChan chan q = 0) : filterQueue chan q = q := by
  rw [filterQueue_eq]
  apply List.filter_eq_self.mpr
  intro w hw
  simp only [countChan, List.length_eq_zero, List.filter_eq_nil_iff] at h
  simpa using h w hw

theorem filterQueue_length_le (chan : String) (q : List WaitingUser) :
    (filterQueue chan q).length ≤ q.length := by
  rw [filterQueue_eq]; exact List.length_filter_le _ _

/-! ## Lemmas about the matching scan -/

theorem matchInQueue_sentTargets (chan : String) (s : Session) (rid region : String)
    (q : List WaitingUser) :
    sentTargets (matchInQueue chan s rid region q).2.2 =
      ((q.find? (fun w => !(w.channel_name == chan))).map
        (fun w => w.channel_name)).toList := by
  induction q with
  | nil => simp [matchInQueue, sentTargets]
  | cons w rest ih =>
    by_cases h : w.channel_name == chan
    · simp [matchInQueue, h, List.find?, ih]
    · simp [matchInQueue, h, List.find?, sentTargets]

/-- C2 — Strict FIFO matching order: the peer a `_match_in_queue` scan pairs
the caller with is exactly the oldest entry of the target queue whose
channel differs from the caller's; in particular with queue `[A, B]` a
caller `C` matches `A`, never `B`. -/
theorem fifo_oldest_eligible :
    (∀ (chan : String) (s : Session) (rid region : String) (q : List WaitingUser),
      matchedTarget (matchInQueue chan s rid region q).2.2 =
        (q.find? (fun w => !(w.channel_name == chan))).map (fun w => w.channel_name)) ∧
    matchedTarget (matchInQueue "C" {} "R" "GLOBAL"
      [⟨"A", "GLOBAL"⟩, ⟨"B", "GLOBAL"⟩]).2.2 = some "A" := by
  constructor
  · intro chan s rid region q
    rw [matchedTarget, matchInQueue_sentTargets]
    cases q.find? (fun w => !(w.channel_name == chan)) <;> simp
  · rfl

/-- C8 — No self-match: any `match.join` sent out by a `_match_in_queue`
scan targets a channel different from the caller's own; a popped entry
bearing the caller's identity is discarded, never matched. -/
theorem no_self_match (chan : String) (s : Session) (rid region : String)
    (q : List WaitingUser) (target : String) (ev : ChannelEvent)
    (h : Effect.sendToOne target ev ∈ (matchInQueue chan s rid region q).2.2) :
    target ≠ chan := by
  induction q with
  | nil => simp [matchInQueue] at h
  | cons w rest ih =>
    by_cases hw : w.channel_name == chan
    · rw [matchInQueue] at h
      simp only [hw, if_true] at h
      exact ih h
    · rw [matchInQueue] at h
      simp only [hw, if_false, Bool.false_eq_true, List.mem_cons, List.not_mem_nil,
        or_false] at h
      rcases h with h | h | h
      · simp at h
      · injection h with h1 h2
        rw [h1]
        intro hc
        rw [hc] at hw
        simp at hw
      · simp at h

/-- Witness for C8: with caller `X` and queue `[X, A]`, the scan skips the
stale `X` entry and matches `A`, and indeed `A ≠ X`. -/
theorem no_self_match_witness :
    Effect.sendToOne "A" (ChannelEvent.matchJoin "R" "GLOBAL") ∈
      (matchInQueue "X" {} "R" "GLOBAL" [⟨"X", "GLOBAL"⟩, ⟨"A", "EU"⟩]).2.2 ∧
    "A" ≠ "X" := by
  refine ⟨?_, ?_⟩
  · simp [matchInQueue]
  · exact no_self_match "X" {} "R" "GLOBAL" [⟨"X", "GLOBAL"⟩, ⟨"A", "EU"⟩]
      "A" (ChannelEvent.matchJoin "R" "GLOBAL") (by simp [matchInQueue])

/-- C1 — End-to-end random match postcondition. Connection `X` sends
`find {mode: random}` on an empty store: the trace replies `queued` and the
random pool afterwards holds exactly `X`'s entry. Connection `Y` then sends
`find {mode: random}` with fresh room id `R`: exactly `X`'s entry is
consumed (the pool is empty again, no region pool was touched), `Y` joins
`room_R` and is replied `matched {room_id: R, peer: {region: X.region}}`,
while a `match.join {room_id: R, peer_region: Y.region}` is sent to `X`'s
channel; `X`'s `match_join` handler then joins `room_R` and replies
`matched {room_id: R, peer: {region: Y.region}}` — the same `R` on both
sides, pairing the two distinct connections. -/
theorem random_match_end_to_end (chanX chanY rX rY R rid1 : String)
    (hne : chanX ≠ chanY) (hrX : rX ≠ "") (hrY : rY ≠ "") :
    (handle_find chanX {} ⟨some "random", some rX⟩ Store.empty rid1).2.2 =
      [.lockAcquire, .sendJson .queued, .lockRelease] ∧
    (handle_find chanX {} ⟨some "random", some rX⟩ Store.empty rid1).1 =
      ⟨[⟨chanX, rX⟩], []⟩ ∧
    (handle_find chanY {} ⟨some "random", some rY⟩ ⟨[⟨chanX, rX⟩], []⟩ R).1 =
      ⟨[], []⟩ ∧
    (handle_find chanY {} ⟨some "random", some rY⟩ ⟨[⟨chanX, rX⟩], []⟩ R).2.2 =
      [.lockAcquire,
       .groupAdd ("room_" ++ R) chanY,
       .sendToOne chanX (.matchJoin R rY),
       .sendJson (.matched R rX),
       .lockRelease] ∧
    (match_join chanX {} R rY).2 =
      [.groupAdd ("room_" ++ R) chanX, .sendJson (.matched R rY)] := by
  have hx : (chanX == chanY) = false := by
    simp only [beq_eq_false_iff_ne, ne_eq]
    exact hne
  refine ⟨?_, ?_, ?_, ?_, ?_⟩
  · simp [handle_find, Store.empty, matchInQueue, resolveRegion]
  · simp [handle_find, Store.empty, matchInQueue, resolveRegion, hrX]
  · simp [handle_find, matchInQueue, hx, resolveRegion]
  · simp [handle_find, matchInQueue, hx, resolveRegion, hrY]
  · simp [match_join]

/-- Witness for C1 at concrete connections `X`, `Y` with regions `EU`,
`US` and room id `R1`. -/
theorem random_match_end_to_end_witness :
    ("X" ≠ "Y" ∧ "EU" ≠ "" ∧ "US" ≠ "") ∧
    ((handle_find "Y" {} ⟨some "random", some "US"⟩ ⟨[⟨"X", "EU"⟩], []⟩ "R1").2.2 =
      [.lockAcquire,
       .groupAdd "room_R1" "Y",
       .sendToOne "X" (.matchJoin "R1" "US"),
       .sendJson (.matched "R1" "EU"),
       .lockRelease]) := by
  refine ⟨⟨by decide, by decide, by decide⟩, ?_⟩
  have h := random_match_end_to_end "X" "Y" "EU" "US" "R1" "r0"
    (by decide) (by decide) (by decide)
  exact h.2.2.2.1

/-! ## C3 — placement of relay sends relative to the queue lock -/

theorem matchInQueue_effects_relay (chan : String) (s : Session) (rid region : String)
    (q : List WaitingUser) :
    ∀ e ∈ (matchInQueue chan s rid region q).2.2, isRelaySend e = true := by
  induction q with
  | nil => simp [matchInQueue, isRelaySend]
  | cons w rest ih =>
    by_cases h : w.channel_name == chan
    · rw [matchInQueue]
      simp only [h, if_true]
      exact ih
    · rw [matchInQueue]
      simp only [h, if_false, Bool.false_eq_true]
      simp [List.forall_mem_cons, isRelaySend]

theorem sendsUnlockedFrom_relay_then_release (d : Nat) (hd : 0 < d)
    (l : List Effect) (h : ∀ e ∈ l, isRelaySend e = true) :
    sendsUnlockedFrom d (l ++ [.lockRelease]) = [] := by
  induction l generalizing d with
  | nil => simp [sendsUnlockedFrom]
  | cons e rest ih =>
    have he : isRelaySend e = true := h e (List.mem_cons_self e rest)
    have hrest : ∀ e ∈ rest, isRelaySend e = true :=
      fun e' he' => h e' (List.mem_cons_of_mem e he')
    have hd0 : (d == 0) = false := by
      simp only [beq_eq_false_iff_ne, ne_eq]
      omega
    cases e with
    | lockAcquire => simp [isRelaySend] at he
    | lockRelease => simp [isRelaySend] at he
    | groupAdd g c => simp [sendsUnlockedFrom, hd0, ih d hd hrest]
    | groupDiscard g c => simp [sendsUnlockedFrom, hd0, ih d hd hrest]
    | sendToOne c ev => simp [sendsUnlockedFrom, hd0, ih d hd hrest]
    | groupSend g ev => simp [sendsUnlockedFrom, hd0, ih d hd hrest]
    | sendJson m => simp [sendsUnlockedFrom, hd0, ih d hd hrest]

/-- C3 counterexample (claim as stated is false): connection `Y` calls
`find {mode: random}` while `X` waits in the random pool; the relay sends
of the resulting trace performed WHILE the queue lock is held are the group
join, the `match.join` to `X` and the `matched` reply — all three, not
none. -/
theorem find_sends_under_lock_cex :
    sendsWhileLocked
        (handle_find "Y" {} ⟨some "random", none⟩ ⟨[⟨"X", "GLOBAL"⟩], []⟩ "R").2.2 =
      [.groupAdd "room_R" "Y",
       .sendToOne "X" (.matchJoin "R" "GLOBAL"),
       .sendJson (.matched "R" "GLOBAL")] := by
  rfl

/-- C3 amended: during `remove` (as reached from `cancel` and `disconnect`)
no relay send happens while the queue lock is held, but during a valid
`find` it is the other way round — every relay send of the trace (group
join, `match.join` to the waiting peer, and the `queued`/`matched` reply)
is performed while the lock is held; none occurs after release. -/
theorem lock_send_placement (chan : String) (s : Session) (c : FindContent)
    (store : Store) (rid : String)
    (hmode : c.mode = some "random" ∨ c.mode = some "region") :
    sendsWhileUnlocked (handle_find chan s c store rid).2.2 = [] ∧
    sendsWhileLocked (handle_cancel chan s store).2.2 = [] ∧
    sendsWhileLocked (disconnect chan s store).2 = [] := by
  refine ⟨?_, ?_, ?_⟩
  · have hvalid : (!(c.mode == some "random" || c.mode == some "region")) = false := by
      rcases hmode with h | h <;> simp [h]
    rw [handle_find]
    rw [hvalid]
    simp only [Bool.false_eq_true, if_false]
    by_cases hr : c.mode == some "random"
    · simp only [hr, if_true]
      rw [sendsWhileUnlocked, sendsUnlockedFrom]
      exact sendsUnlockedFrom_relay_then_release 1 (by omega) _
        (matchInQueue_effects_relay _ _ _ _ _)
    · simp only [hr, Bool.false_eq_true, if_false]
      rw [sendsWhileUnlocked, sendsUnlockedFrom]
      exact sendsUnlockedFrom_relay_then_release 1 (by omega) _
        (matchInQueue_effects_relay _ _ _ _ _)
  · rw [handle_cancel]
    cases s.room_group_name <;> rfl
  · rw [disconnect]
    cases s.room_group_name <;> rfl

/-- Witness for the amended C3 at a concrete matching `find`, a `cancel`
from a room, and a `disconnect`. -/
theorem lock_send_placement_witness :
    sendsWhileUnlocked
        (handle_find "Y" {} ⟨some "random", none⟩ ⟨[⟨"X", "GLOBAL"⟩], []⟩ "R").2.2 = [] ∧
    sendsWhileLocked
        (handle_cancel "Y" ⟨"GLOBAL", none, some "R", some "room_R"⟩
          ⟨[⟨"X", "GLOBAL"⟩], []⟩).2.2 = [] ∧
    sendsWhileLocked
        (disconnect "Y" ⟨"GLOBAL", none, some "R", some "room_R"⟩
          ⟨[⟨"X", "GLOBAL"⟩], []⟩).2 = [] :=
  lock_send_placement "Y" ⟨"GLOBAL", none, some "R", some "room_R"⟩
    ⟨some "random", none⟩ ⟨[⟨"X", "GLOBAL"⟩], []⟩ "R" (Or.inl rfl)

/-! ## C4 — queue membership across the store -/

/-- Every pool of the store holds at most one waiting entry. (`find` only
appends the caller after its scan has drained the target pool, so pools
never grow past one entry.) -/
def poolsBounded (store : Store) : Prop :=
  ∀ q ∈ poolsOf store, q.length ≤ 1

theorem matchInQueue_len (chan : String) (s : Session) (rid region : String)
    (q : List WaitingUser) (h : q.length ≤ 1) :
    (matchInQueue chan s rid region q).1.length ≤ 1 := by
  cases q with
  | nil => simp [matchInQueue]
  | cons w rest =>
    have hrest : rest = [] := by
      cases rest with
      | nil => rfl
      | cons a b => simp at h
    subst hrest
    by_cases hw : w.channel_name == chan
    · simp [matchInQueue, hw]
    · simp [matchInQueue, hw]

theorem lookupRegion_mem (rs : List (String × List WaitingUser)) (r : String)
    (q : List WaitingUser) (h : lookupRegion rs r = some q) :
    q ∈ rs.map (fun p => p.2) := by
  induction rs with
  | nil => simp [lookupRegion] at h
  | cons p rest ih =>
    rw [lookupRegion] at h
    by_cases hk : p.1 == r
    · simp only [hk, if_true] at h
      cases h
      simp
    · simp only [hk, Bool.false_eq_true, if_false] at h
      simp [ih h]

theorem setRegion_pools (rs : List (String × List WaitingUser)) (r : String)
    (q' q : List WaitingUser) (h : q ∈ (setRegion rs r q').map (fun p => p.2)) :
    q = q' ∨ q ∈ rs.map (fun p => p.2) := by
  induction rs with
  | nil => simp [setRegion] at h; exact Or.inl h
  | cons p rest ih =>
    rw [setRegion] at h
    by_cases hk : p.1 == r
    · simp only [hk, if_true, List.map_cons, List.mem_cons] at h
      rcases h with h | h
      · exact Or.inl h
      · exact Or.inr (by simp [h])
    · simp only [hk, Bool.false_eq_true, if_false, List.map_cons, List.mem_cons] at h
      rcases h with h | h
      · exact Or.inr (by simp [h])
      · rcases ih h with h' | h'
        · exact Or.inl h'
        · exact Or.inr (by simp [h'])

theorem removeRegions_pools (chan : String) (rs : List (String × List WaitingUser))
    (q : List WaitingUser) (h : q ∈ (removeRegions chan rs).map (fun p => p.2)) :
    ∃ q0 ∈ rs.map (fun p => p.2), q = filterQueue chan q0 := by
  induction rs with
  | nil => simp [removeRegions] at h
  | cons p rest ih =>
    rw [removeRegions] at h
    by_cases he : (filterQueue chan p.2).isEmpty
    · simp only [he, if_true] at h
      rcases ih h with ⟨q0, hq0, hq⟩
      exact ⟨q0, by simp [hq0], hq⟩
    · simp only [he, Bool.false_eq_true, if_false, List.map_cons, List.mem_cons] at h
      rcases h with h | h
      · exact ⟨p.2, by simp, h⟩
      · rcases ih h with ⟨q0, hq0, hq⟩
        exact ⟨q0, by simp [hq0], hq⟩

theorem applyOp_poolsBounded (store : Store) (op : StoreOp)
    (h : poolsBounded store) : poolsBounded (applyOp store op) := by
  cases op with
  | removeOp chan =>
    intro q hq
    simp only [applyOp, removeStore, poolsOf, List.mem_cons] at hq
    rcases hq with hq | hq
    · rw [hq]
      exact le_trans (filterQueue_length_le chan store.randomQueue)
        (h store.randomQueue (by simp [poolsOf]))
    · rcases removeRegions_pools chan store.regionQueues q hq with ⟨q0, hq0, hfq⟩
      rw [hfq]
      exact le_trans (filterQueue_length_le chan q0)
        (h q0 (by simp [poolsOf, hq0]))
  | find chan mode region rid =>
    intro q hq
    rw [applyOp, handle_find] at hq
    by_cases hm : (!(mode == some "random" || mode == some "region")) = true
    · rw [if_pos hm] at hq
      exact h q hq
    · rw [if_neg hm] at hq
      by_cases hr : (mode == some "random") = true
      · rw [if_pos hr] at hq
        simp only [poolsOf, List.mem_cons] at hq
        rcases hq with hq | hq
        · rw [hq]
          exact matchInQueue_len _ _ _ _ _ (h store.randomQueue (by simp [poolsOf]))
        · exact h q (by simp only [poolsOf, List.mem_cons]; exact Or.inr hq)
      · rw [if_neg hr] at hq
        simp only [poolsOf, List.mem_cons] at hq
        rcases hq with hq | hq
        · rw [hq]
          exact h store.randomQueue (by simp [poolsOf])
        · rcases setRegion_pools _ _ _ _ hq with h' | h'
          · rw [h']
            apply matchInQueue_len
            cases hlk : lookupRegion store.regionQueues (resolveRegion region) with
            | none => simp [hlk]
            | some q0 =>
              simp only [hlk, Option.getD_some]
              exact h q0 (by simp only [poolsOf, List.mem_cons]; exact Or.inr (lookupRegion_mem _ _ _ hlk))
          · exact h q (by simp only [poolsOf, List.mem_cons]; exact Or.inr h')

theorem runOps_poolsBounded (ops : List StoreOp) : poolsBounded (runOps ops) := by
  suffices hgen : ∀ store, poolsBounded store → poolsBounded (ops.foldl applyOp store) by
    apply hgen
    intro q hq
    simp [poolsOf, Store.empty] at hq
    simp [hq]
  induction ops with
  | nil => intro store h; exact h
  | cons op rest ih =>
    intro store h
    exact ih (applyOp store op) (applyOp_poolsBounded store op h)

/-- C4 counterexample (claim as stated is false): connection `X` calls
`find {mode: random}` and then `find {mode: region, region: EU}` without
cancelling; afterwards `X` occupies two queue positions across the store —
one in the random pool and one in the `EU` region pool. -/
theorem cross_pool_double_membership_cex :
    totalOccupancy "X" (runOps
      [.find "X" (some "random") none "r1",
       .find "X" (some "region") (some "EU") "r2"]) = 2 ∧
    runOps [.find "X" (some "random") none "r1",
            .find "X" (some "region") (some "EU") "r2"] =
      ⟨[⟨"X", "GLOBAL"⟩], [("EU", [⟨"X", "EU"⟩])]⟩ := by
  constructor <;> rfl

/-- C4 amended: in every reachable state of the Waiting Queue Store (any
sequence of `find` and `remove` operations from the empty store), a given
connection identity occupies at most one queue position WITHIN EACH
individual pool — in fact each pool holds at most one entry; but a
connection that issues `find` on different pools without cancelling may
occupy one position in each (see the counterexample), so the bound does not
hold across the entire store. -/
theorem per_pool_membership_bound (ops : List StoreOp) (chan : String)
    (q : List WaitingUser) (hq : q ∈ poolsOf (runOps ops)) :
    countChan chan q ≤ 1 :=
  le_trans (List.length_filter_le _ _) (runOps_poolsBounded ops q hq)

/-- Witness for the amended C4: the random pool reached by the
double-`find` trace holds `X` at most once. -/
theorem per_pool_membership_bound_witness :
    [(⟨"X", "GLOBAL"⟩ : WaitingUser)] ∈ poolsOf (runOps
      [.find "X" (some "random") none "r1",
       .find "X" (some "region") (some "EU") "r2"]) ∧
    countChan "X" [⟨"X", "GLOBAL"⟩] ≤ 1 := by
  refine ⟨by decide, ?_⟩
  exact per_pool_membership_bound
    [.find "X" (some "random") none "r1", .find "X" (some "region") (some "EU") "r2"]
    "X" [⟨"X", "GLOBAL"⟩] (by decide)

/-! ## C7 / C9 — removal and disconnect cleanup -/

theorem removeStore_absent (chan : String) (store : Store) :
    ∀ q ∈ poolsOf (removeStore chan store), countChan chan q = 0 := by
  intro q hq
  simp only [removeStore, poolsOf, List.mem_cons] at hq
  rcases hq with hq | hq
  · rw [hq]
    exact countChan_filterQueue _ _
  · rcases removeRegions_pools chan _ q hq with ⟨q0, _, hfq⟩
    rw [hfq]
    exact countChan_filterQueue _ _

theorem removeRegions_eq (chan : String) (rs : List (String × List WaitingUser)) :
    removeRegions chan rs =
      (rs.map (fun p => (p.1, filterQueue chan p.2))).filter
        (fun p => !(p.2.isEmpty)) := by
  induction rs with
  | nil => simp [removeRegions]
  | cons p rest ih =>
    rw [removeRegions]
    by_cases he : (filterQueue chan p.2).isEmpty
    · simp [he, ih, List.filter_cons]
    · simp [he, ih, List.filter_cons]

theorem removeStore_noop (chan : String) (store : Store)
    (habs : ∀ q ∈ poolsOf store, countChan chan q = 0)
    (hne : ∀ p ∈ store.regionQueues, p.2 ≠ []) :
    removeStore chan store = store := by
  have hrand : filterQueue chan store.randomQueue = store.randomQueue :=
    filterQueue_of_absent _ _ (habs store.randomQueue (by simp [poolsOf]))
  have hreg : removeRegions chan store.regionQueues = store.regionQueues := by
    have hgen : ∀ rs, (∀ q ∈ rs.map (fun p => p.2), countChan chan q = 0) →
        (∀ p ∈ rs, p.2 ≠ []) → removeRegions chan rs = rs := by
      intro rs
      induction rs with
      | nil => intro _ _; rfl
      | cons p rest ih =>
        intro h1 h2
        have hp : filterQueue chan p.2 = p.2 :=
          filterQueue_of_absent _ _ (h1 p.2 (by simp))
        have hpe : (filterQueue chan p.2).isEmpty = false := by
          rw [hp]
          cases hq : p.2 with
          | nil => exact absurd hq (h2 p (by simp))
          | cons a b => rfl
        rw [removeRegions, hpe]
        simp only [Bool.false_eq_true, if_false, hp]
        rw [ih (fun q hq => h1 q (by simp [hq])) (fun p' hp' => h2 p' (by simp [hp']))]
    exact hgen store.regionQueues
      (fun q hq => habs q (by simp only [poolsOf, List.mem_cons]; exact Or.inr hq))
      hne
  cases store with
  | mk rq rs => simp only [removeStore] at *; rw [hrand, hreg]

/-- C9 amended — `remove(connection)` semantics: the scan happens between
one lock acquire and release with no relay send; afterwards no pool holds
an entry bearing the connection's identity; the random pool is exactly the
old one with those entries filtered out (order preserved) and the region
family is the old one with each pool filtered and every pool that is empty
after filtering deleted; and `remove` for a connection present in no queue
is a no-op on every entry — a full no-op of the store PROVIDED no region
pool is (already) empty, since empty region pools are garbage-collected
even then (see the counterexample). -/
theorem remove_semantics (chan : String) (store : Store) :
    (removeFromQueues chan store).2 = [.lockAcquire, .lockRelease] ∧
    (∀ q ∈ poolsOf (removeStore chan store), countChan chan q = 0) ∧
    (removeStore chan store).randomQueue =
      store.randomQueue.filter (fun w => !(w.channel_name == chan)) ∧
    (removeStore chan store).regionQueues =
      (store.regionQueues.map (fun p => (p.1, filterQueue chan p.2))).filter
        (fun p => !(p.2.isEmpty)) ∧
    ((∀ q ∈ poolsOf store, countChan chan q = 0) →
      (∀ p ∈ store.regionQueues, p.2 ≠ []) →
      removeStore chan store = store) :=
  ⟨rfl, removeStore_absent chan store, filterQueue_eq chan store.randomQueue,
    removeRegions_eq chan store.regionQueues, removeStore_noop chan store⟩

/-- Witness for the amended C9: removing absent connection `C` from a store
whose only pools are nonempty and free of `C` changes nothing. -/
theorem remove_semantics_witness :
    removeStore "C" ⟨[⟨"X", "GLOBAL"⟩], [("EU", [⟨"A", "EU"⟩])]⟩ =
      ⟨[⟨"X", "GLOBAL"⟩], [("EU", [⟨"A", "EU"⟩])]⟩ :=
  (remove_semantics "C" ⟨[⟨"X", "GLOBAL"⟩], [("EU", [⟨"A", "EU"⟩])]⟩).2.2.2.2
    (by decide) (by decide)

/-- C9 counterexample (claim as stated is false): after `A` and `B` match
in region pool `EU`, the store reachably holds the empty pool
`("EU", [])`; a `remove` for connection `C`, which occupies no queue
position at all, then deletes that pool — a mutation of the store, not a
no-op. -/
theorem remove_absent_mutation_cex :
    totalOccupancy "C" (runOps [.find "A" (some "region") (some "EU") "r1",
                                .find "B" (some "region") (some "EU") "r2"]) = 0 ∧
    runOps [.find "A" (some "region") (some "EU") "r1",
            .find "B" (some "region") (some "EU") "r2"] = ⟨[], [("EU", [])]⟩ ∧
    removeStore "C" (runOps [.find "A" (some "region") (some "EU") "r1",
                             .find "B" (some "region") (some "EU") "r2"]) ≠
      runOps [.find "A" (some "region") (some "EU") "r1",
              .find "B" (some "region") (some "EU") "r2"] := by
  refine ⟨rfl, rfl, by decide⟩

/-- C7 — Disconnect cleanup: a transport-level disconnect unconditionally
removes the connection from every pool (its identity occurs in none of
them afterwards), and — exactly when a room group handle is held — the
trace is one `chat.peer_left` broadcast to the room group followed by one
`group_discard` vacating membership; with no handle held nothing but the
locked queue scrub happens. -/
theorem disconnect_cleanup (chan : String) (s : Session) (store : Store) :
    (∀ q ∈ poolsOf (disconnect chan s store).1, countChan chan q = 0) ∧
    (∀ g, s.room_group_name = some g →
      (disconnect chan s store).2 =
        [.lockAcquire, .lockRelease, .groupSend g .chatPeerLeft,
         .groupDiscard g chan]) ∧
    (s.room_group_name = none →
      (disconnect chan s store).2 = [.lockAcquire, .lockRelease]) := by
  refine ⟨?_, ?_, ?_⟩
  · intro q hq
    have hst : (disconnect chan s store).1 = removeStore chan store := by
      rw [disconnect]
      cases s.room_group_name <;> rfl
    rw [hst] at hq
    exact removeStore_absent chan store q hq
  · intro g hg
    rw [disconnect, hg]
    simp [removeFromQueues]
  · intro hg
    rw [disconnect, hg]
    simp [removeFromQueues]

/-- Witness for C7: `X` disconnects while in room `R` and queued in the
random pool; the pool is scrubbed and exactly one `peer_left` goes to
`room_R` before the membership discard. -/
theorem disconnect_cleanup_witness :
    countChan "X" [] = 0 ∧
    (disconnect "X" ⟨"GLOBAL", none, some "R", some "room_R"⟩
        ⟨[⟨"X", "GLOBAL"⟩], []⟩).2 =
      [.lockAcquire, .lockRelease, .groupSend "room_R" .chatPeerLeft,
       .groupDiscard "room_R" "X"] := by
  constructor
  · exact (disconnect_cleanup "X" ⟨"GLOBAL", none, some "R", some "room_R"⟩
      ⟨[⟨"X", "GLOBAL"⟩], []⟩).1 [] (by decide)
  · exact (disconnect_cleanup "X" ⟨"GLOBAL", none, some "R", some "room_R"⟩
      ⟨[⟨"X", "GLOBAL"⟩], []⟩).2.1 "room_R" rfl

/-! ## C5 — chat message handling -/

/-- C5 counterexample (claim as stated is false): the session is in room
`r1` with a held group handle and the inbound chat carries BOTH fields —
`room_id` equal to the current room and a present (empty-string) `message`
— yet the reply is `invalid_chat` and nothing is broadcast, because the
source tests Python truthiness (`not message`), not presence. -/
theorem chat_falsy_message_cex :
    (ChatContent.mk (some (.jstr "r1")) (some (.jstr ""))).room_id.isSome = true ∧
    (ChatContent.mk (some (.jstr "r1")) (some (.jstr ""))).message.isSome = true ∧
    chatRoomMatches (some (.jstr "r1")) (some "r1") = true ∧
    handle_chat ⟨"GLOBAL", none, some "r1", some "room_r1"⟩
        ⟨some (.jstr "r1"), some (.jstr "")⟩ =
      [.sendJson (.err "invalid_chat")] :=
  ⟨rfl, rfl, rfl, rfl⟩

/-- C5 amended — chat message handling: if either field is missing OR
carries a Python-falsy value (`null`, `false`, `0`, the empty string,
empty array/object) the reply is `invalid_chat`; else if the `room_id`
does not equal the session's current room identifier or no group handle is
held the reply is `not_in_room` and nothing is broadcast; otherwise the
room id and message are forwarded verbatim to the held room group as a
`chat.message` event, and the handler never touches the session state. -/
theorem chat_reply_semantics (s : Session) (c : ChatContent) :
    ((pyFalsyOpt c.room_id || pyFalsyOpt c.message) = true →
      handle_chat s c = [.sendJson (.err "invalid_chat")]) ∧
    ((pyFalsyOpt c.room_id || pyFalsyOpt c.message) = false →
      (chatRoomMatches c.room_id s.room_id = false ∨ s.room_group_name = none) →
      handle_chat s c = [.sendJson (.err "not_in_room")]) ∧
    (∀ r g m, c.room_id = some (.jstr r) → c.message = some m →
      m.falsy = false → s.room_id = some r → r ≠ "" → s.room_group_name = some g →
      handle_chat s c = [.groupSend g (.chatMessage (.jstr r) m)]) := by
  refine ⟨?_, ?_, ?_⟩
  · intro h
    rw [handle_chat, if_pos h]
  · intro h hrest
    rw [handle_chat, if_neg (by rw [h]; exact Bool.false_ne_true)]
    rcases hrest with hm | hm
    · rw [if_pos (by rw [hm]; simp)]
    · rw [if_pos (by rw [hm]; simp)]
  · intro r g m hr hm hmf hsr hrne hsg
    have hfalsy : (pyFalsyOpt c.room_id || pyFalsyOpt c.message) = false := by
      rw [hr, hm]
      simp only [pyFalsyOpt]
      rw [hmf]
      simp [Json.falsy, hrne]
    have hmatch : chatRoomMatches c.room_id s.room_id = true := by
      rw [hr, hsr]
      simp [chatRoomMatches]
    rw [handle_chat, if_neg (by rw [hfalsy]; exact Bool.false_ne_true)]
    rw [if_neg (by rw [hmatch, hsg]; simp)]
    rw [hr, hm, hsg]
    rfl

/-- Witness for the amended C5: a well-formed chat from inside room `r1`
is broadcast verbatim to the held group. -/
theorem chat_reply_semantics_witness :
    handle_chat ⟨"GLOBAL", none, some "r1", some "room_r1"⟩
        ⟨some (.jstr "r1"), some (.jstr "hello")⟩ =
      [.groupSend "room_r1" (.chatMessage (.jstr "r1") (.jstr "hello"))] :=
  (chat_reply_semantics ⟨"GLOBAL", none, some "r1", some "room_r1"⟩
      ⟨some (.jstr "r1"), some (.jstr "hello")⟩).2.2
    "r1" "room_r1" (.jstr "hello") rfl rfl rfl rfl (by decide) rfl

/-! ## C6 — the credential gate -/

/-- C6 — Credential gate: on a websocket handshake the middleware closes
the connection with application code 4401 exactly when the `token` query
parameter is absent (or extracted empty) or present but rejected by the
JWT verification primitive; when verification succeeds it runs the inner
app with the payload's session identifier (`sid`, falling back to
`session_id`) attached, performing no further check. -/
theorem credential_gate (token : Option String) (verify : String → Option JwtPayload) :
    (jwtAuthMiddleware "websocket" token verify = .close 4401 ↔
      (match token with
       | none => True
       | some t => t = "" ∨ verify t = none)) ∧
    (∀ t p, token = some t → t ≠ "" → verify t = some p →
      jwtAuthMiddleware "websocket" token verify =
        .proceed (pyOrStr p.sid p.session_id)) := by
  constructor
  · cases token with
    | none => simp [jwtAuthMiddleware]
    | some t =>
      by_cases ht : t = ""
      · simp [jwtAuthMiddleware, ht]
      · cases hv : verify t with
        | none => simp [jwtAuthMiddleware, ht, hv]
        | some p => simp [jwtAuthMiddleware, ht, hv]
  · intro t p hts htne hv
    rw [hts]
    rw [jwtAuthMiddleware]
    simp [htne, hv]

/-- Witness for C6: a missing token closes with 4401; a verified token
proceeds with the payload's `sid`. -/
theorem credential_gate_witness :
    jwtAuthMiddleware "websocket" none (fun _ => none) = .close 4401 ∧
    jwtAuthMiddleware "websocket" (some "tok")
        (fun _ => some ⟨some "s1", none⟩) = .proceed (some "s1") := by
  constructor
  · exact (credential_gate none (fun _ => none)).1.mpr trivial
  · exact (credential_gate (some "tok") (fun _ => some ⟨some "s1", none⟩)).2
      "tok" ⟨some "s1", none⟩ rfl (by decide) rfl

/-! ## C10 — cancel delivers peer_left to the canceller as well -/

/-- C10 — When `cancel` is handled while a room group handle is held, the
`chat.peer_left` broadcast is issued BEFORE the canceller's
`group_discard`, so replaying the trace against a group state in which the
canceller and the peer are both members delivers the `chat.peer_left`
event to the canceller's own channel as well as to the peer's (each of
which the `chat_peer_left` handler turns into a `{type: peer_left}` client
message), in addition to the canceller's own `cancelled` reply. -/
theorem cancel_self_peer_left (g chanX chanY : String) (s : Session) (store : Store)
    (hg : s.room_group_name = some g) :
    (chanX, ChannelEvent.chatPeerLeft) ∈
      deliveries [(g, [chanX, chanY])] (handle_cancel chanX s store).2.2 ∧
    (chanY, ChannelEvent.chatPeerLeft) ∈
      deliveries [(g, [chanX, chanY])] (handle_cancel chanX s store).2.2 ∧
    Effect.sendJson OutMsg.cancelled ∈ (handle_cancel chanX s store).2.2 ∧
    chat_peer_left = [Effect.sendJson OutMsg.peerLeft] := by
  have heff : (handle_cancel chanX s store).2.2 =
      [.lockAcquire, .lockRelease, .groupSend g .chatPeerLeft,
       .groupDiscard g chanX, .sendJson .cancelled] := by
    rw [handle_cancel, hg]
    simp [removeFromQueues]
  refine ⟨?_, ?_, ?_, rfl⟩ <;> rw [heff] <;> simp [deliveries, groupMembers]

/-- Witness for C10: `X` cancels from room `R` while `X` and `Y` are its
members; both channels are delivered `chat.peer_left`. -/
theorem cancel_self_peer_left_witness :
    ("X", ChannelEvent.chatPeerLeft) ∈
      deliveries [("room_R", ["X", "Y"])]
        (handle_cancel "X" ⟨"GLOBAL", none, some "R", some "room_R"⟩
          Store.empty).2.2 ∧
    ("Y", ChannelEvent.chatPeerLeft) ∈
      deliveries [("room_R", ["X", "Y"])]
        (handle_cancel "X" ⟨"GLOBAL", none, some "R", some "room_R"⟩
          Store.empty).2.2 :=
  ⟨(cancel_self_peer_left "room_R" "X" "Y" ⟨"GLOBAL", none, some "R", some "room_R"⟩
      Store.empty rfl).1,
   (cancel_self_peer_left "room_R" "X" "Y" ⟨"GLOBAL", none, some "R", some "room_R"⟩
      Store.empty rfl).2.1⟩

end Sighchat
